import Mathlib

/-!
# A shallow embedding of the guestbook backend (`src/backend/server.js`)

The backend is a small Express application with two API routes:

* `GET /api/messages` (server.js lines 134-160): consult the Redis cache,
  on a hit return the cached list; on a miss or when the cache client is
  not open, query MySQL (`SELECT ... ORDER BY created_at DESC`), repopulate
  the cache with `setEx(key, 3600, ...)` and return the rows.
* `POST /api/messages` (server.js lines 162-193): validate
  `!content || content.trim() === ''` (outside the try/catch), then inside
  the try/catch: insert the trimmed content, `del` the cache key, re-read
  the new row by its id and return it with status 201.

The embedding below models the MySQL table, the Redis key/value store with
absolute expiry times, the per-request environment (availability of the DB
pool and the Redis client, and which individual I/O operations reject), and
both handlers as pure functions returning the HTTP outcome, the new system
state and the list of successfully performed I/O operations, in order.

`JSON.stringify` / `JSON.parse` (runtime-library code forming an inverse
pair on the values involved; `JSON.stringify` of a row array is never the
empty string, so the truthiness test `if (cachedMessages)` is equivalent to
presence) are modelled as the identity: the cache stores message lists
directly.
-/

namespace Guestbook

/-- The characters removed by JavaScript `String.prototype.trim` (the ASCII
whitespace characters and line terminators; the non-ASCII Unicode space
characters are omitted, no claim involves them). -/
def isJsWhitespace (c : Char) : Bool :=
  c = ' ' || c = '\t' || c = '\n' || c = '\r' || c = '\x0b' || c = '\x0c'

/-- JavaScript `trim` on a character list: drop whitespace from both ends. -/
def trimChars (l : List Char) : List Char :=
  (l.dropWhile isJsWhitespace).rdropWhile isJsWhitespace

/-- JavaScript `String.prototype.trim`. -/
def jsTrim (s : String) : String :=
  ⟨trimChars s.data⟩

/-- A JavaScript value, as far as the `content` field of a request body is
concerned (`const { content } = req.body`). Numbers are modelled as `Int`;
`NaN` (also falsy) plays no role in any claim. -/
inductive JSValue where
  | undef
  | null
  | bool (b : Bool)
  | num (n : Int)
  | str (s : String)
  | obj
deriving DecidableEq, Repr

/-- JavaScript truthiness of a value. -/
def truthy : JSValue → Bool
  | .undef => false
  | .null => false
  | .bool b => b
  | .num n => n != 0
  | .str s => s != ""
  | .obj => true

/-- A row of the `messages` table
(`id INT AUTO_INCREMENT PRIMARY KEY, content TEXT NOT NULL,
created_at TIMESTAMP DEFAULT CURRENT_TIMESTAMP`). -/
structure Message where
  id : Nat
  content : String
  created_at : Nat
deriving DecidableEq, Repr

/-- The MySQL `messages` table: its rows in insertion order together with
the next `AUTO_INCREMENT` value. -/
structure StoreState where
  rows : List Message
  nextId : Nat
deriving DecidableEq, Repr

/-- The comparison realised by `ORDER BY created_at DESC`. -/
def msgDescOrder (a b : Message) : Prop :=
  b.created_at ≤ a.created_at

instance : DecidableRel msgDescOrder := fun a b =>
  Nat.decLe b.created_at a.created_at

instance : IsTrans Message msgDescOrder :=
  ⟨fun _ _ _ hab hbc => Nat.le_trans hbc hab⟩

instance : IsTotal Message msgDescOrder :=
  ⟨fun a b => Nat.le_total b.created_at a.created_at⟩

/-- `SELECT id, content, created_at FROM messages ORDER BY created_at DESC`
(server.js line 149): every row, ordered by `created_at` descending (ties in
an order chosen by the engine; modelled by a stable sort). -/
def listAll (s : StoreState) : List Message :=
  s.rows.insertionSort msgDescOrder

/-- `INSERT INTO messages (content) VALUES (?)` (server.js lines 173-176) at
time `now`: append a fully populated row, return the new state and
`result.insertId`. -/
def insertRow (s : StoreState) (content : String) (now : Nat) :
    StoreState × Nat :=
  ({ rows := s.rows ++ [⟨s.nextId, content, now⟩], nextId := s.nextId + 1 },
   s.nextId)

/-- `SELECT id, content, created_at FROM messages WHERE id = ?`
(server.js line 186). -/
def selectById (s : StoreState) (i : Nat) : List Message :=
  s.rows.filter (fun m => m.id == i)

/-- The Redis database: each live entry is a key with its value and its
absolute expiry time. Values are the (deserialized) message lists, see the
module docstring. -/
structure CacheState where
  entries : List (String × List Message × Nat)
deriving DecidableEq, Repr

/-- `const REDIS_MESSAGES_KEY = 'guestbook:messages'` (server.js line 97). -/
def REDIS_MESSAGES_KEY : String := "guestbook:messages"

/-- `redisClient.get key` at time `now`: the stored value if the key is
present and unexpired, otherwise `none` (redis returns `null`). -/
def cacheGet (c : CacheState) (key : String) (now : Nat) :
    Option (List Message) :=
  match c.entries.find? (fun e => e.1 == key) with
  | some e => if now < e.2.2 then some e.2.1 else none
  | none => none

/-- `redisClient.setEx key ttl v` at time `now`: (re)bind the key with
expiry `now + ttl`. -/
def cacheSetEx (c : CacheState) (key : String) (ttl : Nat)
    (v : List Message) (now : Nat) : CacheState :=
  ⟨(key, v, now + ttl) :: c.entries.filter (fun e => e.1 != key)⟩

/-- `redisClient.del key`: remove the key. -/
def cacheDel (c : CacheState) (key : String) : CacheState :=
  ⟨c.entries.filter (fun e => e.1 != key)⟩

/-- The mutable state of the system: the MySQL table and the Redis data. -/
structure SystemState where
  store : StoreState
  cache : CacheState
deriving DecidableEq, Repr

/-- The per-request environment: which backing services are reachable,
which individual I/O operations reject when attempted, and the current
time (in seconds, it is both `CURRENT_TIMESTAMP` and the TTL clock). -/
structure Env where
  /-- `dbPool` is non-null. -/
  dbAvailable : Bool
  /-- the `SELECT ... ORDER BY created_at DESC` query rejects. -/
  dbListFails : Bool
  /-- the `INSERT` rejects. -/
  dbInsertFails : Bool
  /-- the `SELECT ... WHERE id = ?` query rejects. -/
  dbSelectFails : Bool
  /-- `redisClient && redisClient.isOpen`. -/
  cacheOpen : Bool
  /-- `redisClient.get` rejects. -/
  cacheGetFails : Bool
  /-- `redisClient.setEx` rejects. -/
  cacheSetFails : Bool
  /-- `redisClient.del` rejects. -/
  cacheDelFails : Bool
  /-- current time in seconds. -/
  now : Nat
deriving DecidableEq, Repr

/-- A successfully performed I/O operation of a handler (rejected
operations perform no observable effect in the model and record no
event). -/
inductive Event where
  | cacheGet
  | cacheSet (ttl : Nat)
  | cacheDel
  | storeList
  | storeInsert (content : String)
  | storeSelect (id : Nat)
deriving DecidableEq, Repr

/-- A response body as produced by the handlers. -/
inductive Body where
  /-- `res.json(rows)` or `res.json(JSON.parse(cachedMessages))`. -/
  | jsonList (l : List Message)
  /-- `res.status(201).json(newMessages[0])` (`none` models `undefined`). -/
  | jsonRow (m : Option Message)
  /-- `res.status(k).json({ error: msg })`. -/
  | jsonError (msg : String)
deriving DecidableEq, Repr

/-- The HTTP-visible outcome of one request. -/
inductive HttpOutcome where
  /-- a response with this status code and body was sent. -/
  | response (status : Nat) (body : Body)
  /-- the handler threw outside its try/catch: no response is sent. -/
  | uncaught
deriving DecidableEq, Repr

/-- What one handler invocation produces: the HTTP outcome, the resulting
system state, and the performed I/O operations in order. -/
structure HandlerResult where
  outcome : HttpOutcome
  state : SystemState
  events : List Event
deriving DecidableEq, Repr

/-- `GET /api/messages`, continuation after the cache lookup did not return
(server.js lines 145-158): the `dbPool` guard, the `SELECT`, and the
best-effort-looking `setEx` that is in fact inside the same try/catch. -/
def getMessagesStore (env : Env) (st : SystemState) (evs : List Event) :
    HandlerResult :=
  if !env.dbAvailable then
    ⟨.response 503 (.jsonError "Database service not available."), st, evs⟩
  else if env.dbListFails then
    -- the rejection is caught at line 156: 500
    ⟨.response 500 (.jsonError "Failed to retrieve messages"), st, evs⟩
  else
    let rows := listAll st.store
    if env.cacheOpen then
      if env.cacheSetFails then
        -- `await redisClient.setEx(...)` rejects; caught at line 156: 500,
        -- although the rows were already fetched
        ⟨.response 500 (.jsonError "Failed to retrieve messages"), st,
         evs ++ [.storeList]⟩
      else
        ⟨.response 200 (.jsonList rows),
         { st with
            cache := cacheSetEx st.cache REDIS_MESSAGES_KEY 3600 rows env.now },
         evs ++ [.storeList, .cacheSet 3600]⟩
    else
      ⟨.response 200 (.jsonList rows), st, evs ++ [.storeList]⟩

/-- `GET /api/messages` (server.js lines 134-160). -/
def getMessages (env : Env) (st : SystemState) : HandlerResult :=
  if env.cacheOpen then
    if env.cacheGetFails then
      -- `await redisClient.get(...)` rejects; caught at line 156: 500
      ⟨.response 500 (.jsonError "Failed to retrieve messages"), st,
       [.cacheGet]⟩
    else
      match cacheGet st.cache REDIS_MESSAGES_KEY env.now with
      | some cached =>
        -- `return res.json(JSON.parse(cachedMessages))`
        ⟨.response 200 (.jsonList cached), st, [.cacheGet]⟩
      | none => getMessagesStore env st [.cacheGet]
  else
    getMessagesStore env st []

/-- `POST /api/messages`, re-read and respond (server.js lines 186-187). -/
def postReread (env : Env) (st : SystemState) (newId : Nat)
    (evs : List Event) : HandlerResult :=
  if env.dbSelectFails then
    ⟨.response 500 (.jsonError "Failed to post message"), st, evs⟩
  else
    ⟨.response 201 (.jsonRow (selectById st.store newId).head?), st,
     evs ++ [.storeSelect newId]⟩

/-- `POST /api/messages`, the try/catch block after validation passed
(server.js lines 169-192), with `trimmed = content.trim()`. -/
def postBody (env : Env) (st : SystemState) (trimmed : String) :
    HandlerResult :=
  if !env.dbAvailable then
    ⟨.response 503 (.jsonError "Database service not available."), st, []⟩
  else if env.dbInsertFails then
    ⟨.response 500 (.jsonError "Failed to post message"), st, []⟩
  else
    let ins := insertRow st.store trimmed env.now
    if env.cacheOpen then
      if env.cacheDelFails then
        -- `await redisClient.del(...)` rejects; caught at line 189: 500,
        -- although the row is already inserted
        ⟨.response 500 (.jsonError "Failed to post message"),
         { st with store := ins.1 }, [.storeInsert trimmed]⟩
      else
        postReread env
          { store := ins.1, cache := cacheDel st.cache REDIS_MESSAGES_KEY }
          ins.2 [.storeInsert trimmed, .cacheDel]
    else
      postReread env { st with store := ins.1 } ins.2 [.storeInsert trimmed]

/-- `POST /api/messages` (server.js lines 162-193). The validation
`if (!content || content.trim() === '')` runs before the try/catch; when
`content` is truthy but not a string, `content.trim` is not a function and
the handler throws an uncaught TypeError. -/
def postMessage (env : Env) (st : SystemState) (content : JSValue) :
    HandlerResult :=
  if !truthy content then
    ⟨.response 400 (.jsonError "Message content cannot be empty"), st, []⟩
  else
    match content with
    | .str s =>
      if jsTrim s == "" then
        ⟨.response 400 (.jsonError "Message content cannot be empty"), st, []⟩
      else
        postBody env st (jsTrim s)
    | _ => ⟨.uncaught, st, []⟩

/-- An API request. -/
inductive Request where
  | list
  | create (content : JSValue)
deriving DecidableEq, Repr

/-- The state after serving one request. -/
def stepState (st : SystemState) : Env × Request → SystemState
  | (env, .list) => (getMessages env st).state
  | (env, .create c) => (postMessage env st c).state

/-- The state after serving a sequence of requests. -/
def execOps (ops : List (Env × Request)) (st : SystemState) : SystemState :=
  ops.foldl stepState st

/-- The initial state: empty table (`AUTO_INCREMENT` starts at 1), empty
cache. -/
def initState : SystemState := ⟨⟨[], 1⟩, ⟨[]⟩⟩

/-- A fault-free environment at time 5: DB pool up, Redis client open,
no operation rejects. -/
def envOK : Env := ⟨true, false, false, false, true, false, false, false, 5⟩

/-- Like `envOK` but with the Redis client unavailable (absent or not
open). -/
def envNoCache : Env := { envOK with cacheOpen := false }

/-- Override the three cache-operation failure flags of an environment. -/
def withCacheFlags (env : Env) (g s' d : Bool) : Env :=
  { env with cacheGetFails := g, cacheSetFails := s', cacheDelFails := d }

/-- A state with one stored row whose list is cached unexpired under the
messages key. -/
def stCached : SystemState :=
  ⟨⟨[⟨1, "hi", 2⟩], 2⟩, ⟨[(REDIS_MESSAGES_KEY, [⟨1, "hi", 2⟩], 100)]⟩⟩

/-- The content invariant: nonempty, trimmed, and not whitespace-only. -/
def contentOK (s : String) : Prop :=
  s ≠ "" ∧ jsTrim s = s ∧ ¬ ∀ c ∈ s.data, isJsWhitespace c

/-- Every row of the table satisfies the content invariant. -/
def storeContentsOK (s : StoreState) : Prop :=
  ∀ m ∈ s.rows, contentOK m.content

/-- Every row id is below the next `AUTO_INCREMENT` value. -/
def idsBounded (s : StoreState) : Prop :=
  ∀ m ∈ s.rows, m.id < s.nextId

/-! ## Helper lemmas -/

theorem dropWhile_trimChars (l : List Char) :
    (trimChars l).dropWhile isJsWhitespace = trimChars l := by
  unfold trimChars
  cases hB : (l.dropWhile isJsWhitespace).rdropWhile isJsWhitespace with
  | nil => simp
  | cons b B =>
    obtain ⟨t, ht⟩ :=
      hB ▸ List.rdropWhile_prefix isJsWhitespace (l.dropWhile isJsWhitespace)
    have hne : l.dropWhile isJsWhitespace ≠ [] := by
      rw [← ht]; simp
    have hnot := List.head_dropWhile_not isJsWhitespace l hne
    have hb : (l.dropWhile isJsWhitespace).head hne = b := by
      simp [← ht]
    rw [hb] at hnot
    rw [List.dropWhile_cons_of_neg (by simp [hnot])]

theorem trimChars_idempotent (l : List Char) :
    trimChars (trimChars l) = trimChars l := by
  show ((trimChars l).dropWhile isJsWhitespace).rdropWhile isJsWhitespace
      = trimChars l
  rw [dropWhile_trimChars]
  unfold trimChars
  exact List.rdropWhile_idempotent _ _

theorem jsTrim_idempotent (s : String) : jsTrim (jsTrim s) = jsTrim s :=
  congrArg String.mk (trimChars_idempotent s.data)

theorem trimChars_eq_nil_of_all (l : List Char)
    (h : ∀ c ∈ l, isJsWhitespace c) : trimChars l = [] := by
  unfold trimChars
  rw [List.dropWhile_eq_nil_iff.mpr h]
  exact List.rdropWhile_nil _

theorem contentOK_jsTrim (s : String) (h : jsTrim s ≠ "") :
    contentOK (jsTrim s) := by
  refine ⟨h, jsTrim_idempotent s, fun hall => ?_⟩
  have : jsTrim (jsTrim s) = "" := by
    show String.mk (trimChars (jsTrim s).data) = ""
    rw [trimChars_eq_nil_of_all _ hall]
  rw [jsTrim_idempotent] at this
  exact h this

theorem jsTrim_empty : jsTrim "" = "" := rfl

/-- The GET handler never mutates the table. -/
theorem getMessagesStore_store_eq (env : Env) (st : SystemState)
    (evs : List Event) : (getMessagesStore env st evs).state.store = st.store := by
  unfold getMessagesStore
  split
  · rfl
  · split
    · rfl
    · split
      · split
        · rfl
        · rfl
      · rfl

theorem getMessages_store_eq (env : Env) (st : SystemState) :
    (getMessages env st).state.store = st.store := by
  unfold getMessages
  split
  · split
    · rfl
    · split
      · rfl
      · exact getMessagesStore_store_eq env st _
  · exact getMessagesStore_store_eq env st _

/-- The POST handler either leaves the table unchanged or inserts the
trimmed content of a string body that does not trim to empty. -/
theorem postMessage_store_cases (env : Env) (st : SystemState) (c : JSValue) :
    (postMessage env st c).state.store = st.store ∨
    ∃ s, c = .str s ∧ jsTrim s ≠ "" ∧
      (postMessage env st c).state.store =
        (insertRow st.store (jsTrim s) env.now).1 := by
  cases c with
  | str s =>
    unfold postMessage
    split
    · exact Or.inl rfl
    · dsimp only
      by_cases hs : (jsTrim s == "") = true
      · rw [if_pos hs]
        exact Or.inl rfl
      · rw [if_neg hs]
        have hs' : jsTrim s ≠ "" := by simpa using hs
        unfold postBody postReread
        split
        · exact Or.inl rfl
        · split
          · exact Or.inl rfl
          · split
            · split
              · exact Or.inr ⟨s, rfl, hs', rfl⟩
              · split
                · exact Or.inr ⟨s, rfl, hs', rfl⟩
                · exact Or.inr ⟨s, rfl, hs', rfl⟩
            · split
              · exact Or.inr ⟨s, rfl, hs', rfl⟩
              · exact Or.inr ⟨s, rfl, hs', rfl⟩
  | undef => exact Or.inl rfl
  | null => exact Or.inl rfl
  | bool b =>
    unfold postMessage
    split
    · exact Or.inl rfl
    · exact Or.inl rfl
  | num n =>
    unfold postMessage
    split
    · exact Or.inl rfl
    · exact Or.inl rfl
  | obj => exact Or.inl rfl

/-- The POST handler either leaves the cache data unchanged or deletes the
messages key. -/
theorem postMessage_cache_cases (env : Env) (st : SystemState) (c : JSValue) :
    (postMessage env st c).state.cache = st.cache ∨
    (postMessage env st c).state.cache = cacheDel st.cache REDIS_MESSAGES_KEY := by
  cases c with
  | str s =>
    unfold postMessage
    split
    · exact Or.inl rfl
    · dsimp only
      by_cases hs : (jsTrim s == "") = true
      · rw [if_pos hs]
        exact Or.inl rfl
      · rw [if_neg hs]
        unfold postBody postReread
        split
        · exact Or.inl rfl
        · split
          · exact Or.inl rfl
          · split
            · split
              · exact Or.inl rfl
              · split
                · exact Or.inr rfl
                · exact Or.inr rfl
            · split
              · exact Or.inl rfl
              · exact Or.inl rfl
  | undef => exact Or.inl rfl
  | null => exact Or.inl rfl
  | bool b =>
    unfold postMessage
    split
    · exact Or.inl rfl
    · exact Or.inl rfl
  | num n =>
    unfold postMessage
    split
    · exact Or.inl rfl
    · exact Or.inl rfl
  | obj => exact Or.inl rfl

/-- One served request preserves the content invariant of the table. -/
theorem stepState_contentsOK (st : SystemState) (op : Env × Request)
    (h : storeContentsOK st.store) : storeContentsOK (stepState st op).store := by
  obtain ⟨env, r⟩ := op
  cases r with
  | list =>
    show storeContentsOK (getMessages env st).state.store
    rw [getMessages_store_eq]
    exact h
  | create c =>
    show storeContentsOK (postMessage env st c).state.store
    rcases postMessage_store_cases env st c with he | ⟨s, _, hs, he⟩
    · rw [he]; exact h
    · rw [he]
      intro m hm
      rcases List.mem_append.mp hm with hm | hm
      · exact h m hm
      · rcases List.mem_singleton.mp hm with rfl
        exact contentOK_jsTrim s hs

theorem execOps_contentsOK (ops : List (Env × Request)) (st : SystemState)
    (h : storeContentsOK st.store) : storeContentsOK (execOps ops st).store := by
  induction ops generalizing st with
  | nil => exact h
  | cons op ops ih =>
    show storeContentsOK (ops.foldl stepState (stepState st op)).store
    exact ih _ (stepState_contentsOK st op h)

/-- One served request preserves the id bound of the table. -/
theorem stepState_idsBounded (st : SystemState) (op : Env × Request)
    (h : idsBounded st.store) : idsBounded (stepState st op).store := by
  obtain ⟨env, r⟩ := op
  cases r with
  | list =>
    show idsBounded (getMessages env st).state.store
    rw [getMessages_store_eq]
    exact h
  | create c =>
    show idsBounded (postMessage env st c).state.store
    rcases postMessage_store_cases env st c with he | ⟨s, _, _, he⟩
    · rw [he]; exact h
    · rw [he]
      intro m hm
      rcases List.mem_append.mp hm with hm | hm
      · exact Nat.lt_succ_of_lt (h m hm)
      · rcases List.mem_singleton.mp hm with rfl
        exact Nat.lt_succ_self _

theorem execOps_idsBounded (ops : List (Env × Request)) (st : SystemState)
    (h : idsBounded st.store) : idsBounded (execOps ops st).store := by
  induction ops generalizing st with
  | nil => exact h
  | cons op ops ih =>
    show idsBounded (ops.foldl stepState (stepState st op)).store
    exact ih _ (stepState_idsBounded st op h)

theorem cacheGet_of_entries_nil (c : CacheState) (key : String) (now : Nat)
    (h : c.entries = []) : cacheGet c key now = none := by
  unfold cacheGet
  rw [h]
  rfl

/-- Create requests never populate the cache. -/
theorem postMessage_cache_empty (env : Env) (st : SystemState) (c : JSValue)
    (h : st.cache.entries = []) :
    (postMessage env st c).state.cache.entries = [] := by
  rcases postMessage_cache_cases env st c with he | he <;> rw [he]
  · exact h
  · show (st.cache.entries.filter _) = []
    rw [h]
    rfl

/-- A sequence of create requests leaves the cache empty. -/
theorem execOps_creates_cache_empty (ops : List (Env × JSValue))
    (st : SystemState) (h : st.cache.entries = []) :
    (execOps (ops.map fun p => (p.1, Request.create p.2)) st).cache.entries
      = [] := by
  induction ops generalizing st with
  | nil => exact h
  | cons op ops ih =>
    show ((ops.map fun p => (p.1, Request.create p.2)).foldl stepState
        (stepState st (op.1, Request.create op.2))).cache.entries = []
    exact ih _ (postMessage_cache_empty op.1 st op.2 h)

/-- Looking up the key just written by `setEx` with a positive TTL. -/
theorem cacheGet_setEx (c : CacheState) (key : String) (ttl : Nat)
    (v : List Message) (now : Nat) (h : 0 < ttl) :
    cacheGet (cacheSetEx c key ttl v now) key now = some v := by
  unfold cacheGet cacheSetEx
  rw [List.find?_cons_of_pos _ (by simp)]
  simp [Nat.lt_add_of_pos_right h]

/-- Re-reading the freshly inserted row by its id finds exactly that row. -/
theorem selectById_insertRow (s : StoreState) (t : String) (now : Nat)
    (h : idsBounded s) :
    selectById (insertRow s t now).1 s.nextId = [⟨s.nextId, t, now⟩] := by
  unfold selectById insertRow
  rw [List.filter_append]
  have h1 : s.rows.filter (fun m => m.id == s.nextId) = [] := by
    rw [List.filter_eq_nil_iff]
    intro m hm
    have := h m hm
    simp only [beq_iff_eq]
    omega
  rw [h1]
  simp

theorem insertRow_snd (s : StoreState) (t : String) (now : Nat) :
    (insertRow s t now).2 = s.nextId := rfl

/-- `listAll` is a permutation of the rows, sorted by `created_at`
descending. -/
theorem listAll_perm_sorted (s : StoreState) :
    (listAll s).Perm s.rows ∧
    (listAll s).Pairwise (fun a b => b.created_at ≤ a.created_at) :=
  ⟨List.perm_insertionSort msgDescOrder s.rows,
   List.sorted_insertionSort msgDescOrder s.rows⟩

/-- When the Redis client is not open, the GET handler's behaviour does
not depend on the cache-failure flags. -/
theorem getMessages_cache_flags_irrel (env : Env) (st : SystemState)
    (g s' d : Bool) (h : env.cacheOpen = false) :
    getMessages (withCacheFlags env g s' d) st = getMessages env st := by
  simp [withCacheFlags, getMessages, getMessagesStore, h]

/-- When the Redis client is not open, the POST handler's behaviour does
not depend on the cache-failure flags. -/
theorem postMessage_cache_flags_irrel (env : Env) (st : SystemState)
    (c : JSValue) (g s' d : Bool) (h : env.cacheOpen = false) :
    postMessage (withCacheFlags env g s' d) st c = postMessage env st c := by
  cases c with
  | str sc =>
    unfold postMessage
    by_cases h0 : (!truthy (JSValue.str sc)) = true
    · rw [if_pos h0, if_pos h0]
    · rw [if_neg h0, if_neg h0]
      dsimp only
      by_cases h1 : (jsTrim sc == "") = true
      · rw [if_pos h1, if_pos h1]
      · rw [if_neg h1, if_neg h1]
        simp [withCacheFlags, postBody, postReread, h]
  | undef => rfl
  | null => rfl
  | bool b => cases b <;> rfl
  | num n =>
    unfold postMessage
    by_cases h0 : (!truthy (JSValue.num n)) = true <;> simp [h0]
  | obj => rfl

/-- Evaluation of the GET handler on the open-cache miss path with a
working Store. -/
theorem getMessages_open_miss (env : Env) (st : SystemState)
    (hopen : env.cacheOpen = true) (hg : env.cacheGetFails = false)
    (hs : env.cacheSetFails = false)
    (hmiss : cacheGet st.cache REDIS_MESSAGES_KEY env.now = none)
    (hdb : env.dbAvailable = true) (hl : env.dbListFails = false) :
    getMessages env st =
      ⟨.response 200 (.jsonList (listAll st.store)),
       { st with cache :=
          (cacheSetEx st.cache REDIS_MESSAGES_KEY 3600 (listAll st.store)
            env.now) },
       [.cacheGet, .storeList, .cacheSet 3600]⟩ := by
  simp [getMessages, getMessagesStore, hopen, hg, hs, hmiss, hdb, hl]

/-! ## Claim theorems -/

/-- C2: a create request whose `content` is missing (`undefined`) or is a
string trimming to the empty string is answered HTTP 400 with body
`{error: "Message content cannot be empty"}`; the system state — in
particular the Store row count — is unchanged and no Store or Cache
operation is performed. -/
theorem post_empty_content_400 (env : Env) (st : SystemState) (v : JSValue)
    (h : v = .undef ∨ ∃ s, v = .str s ∧ jsTrim s = "") :
    postMessage env st v =
      ⟨.response 400 (.jsonError "Message content cannot be empty"), st, []⟩ ∧
    (postMessage env st v).state.store.rows.length
      = st.store.rows.length := by
  have he : postMessage env st v =
      ⟨.response 400 (.jsonError "Message content cannot be empty"), st, []⟩ := by
    rcases h with rfl | ⟨s, rfl, hs⟩
    · rfl
    · unfold postMessage
      by_cases h0 : (!truthy (JSValue.str s)) = true
      · rw [if_pos h0]
      · rw [if_neg h0]
        dsimp only
        rw [if_pos (by simp [hs])]
  exact ⟨he, by rw [he]⟩

/-- C2 witness: `postMessage` of `"   "` in the fault-free environment. -/
theorem post_empty_content_400_witness :
    postMessage envOK initState (.str "   ") =
      ⟨.response 400 (.jsonError "Message content cannot be empty"),
       initState, []⟩ ∧
    (postMessage envOK initState (.str "   ")).state.store.rows.length
      = initState.store.rows.length :=
  post_empty_content_400 envOK initState (.str "   ")
    (Or.inr ⟨"   ", rfl, by decide⟩)

/-- C9: cache invalidation (`del` of a key) is idempotent: for any cache
state, a second `del` right after a first leaves the cache exactly as
after the first (the second call is a no-op and cannot signal a missing
key), and the key is absent afterwards. -/
theorem invalidate_idempotent (c : CacheState) (key : String) (now : Nat) :
    cacheDel (cacheDel c key) key = cacheDel c key ∧
    cacheGet (cacheDel c key) key now = none := by
  constructor
  · show CacheState.mk _ = CacheState.mk _
    simp [cacheDel, List.filter_filter]
  · have h : (c.entries.filter (fun e => e.1 != key)).find?
        (fun e => e.1 == key) = none := by
      rw [List.find?_eq_none]
      intro x hx
      have h2 := (List.mem_filter.mp hx).2
      simpa using h2
    unfold cacheGet cacheDel
    rw [h]

/-- C10: a create request whose `content` is truthy but not a string (for
example a number) makes the validation expression call `content.trim()`
outside the try/catch: the handler throws an uncaught TypeError, no HTTP
response (in particular no JSON error body) is produced, and neither the
Store nor the Cache is touched. -/
theorem post_nonstring_uncaught (env : Env) (st : SystemState) (v : JSValue)
    (ht : truthy v = true) (hns : ∀ s, v ≠ .str s) :
    postMessage env st v = ⟨.uncaught, st, []⟩ := by
  unfold postMessage
  rw [if_neg (by simp [ht])]
  cases v with
  | str s => exact absurd rfl (hns s)
  | undef => simp [truthy] at ht
  | null => simp [truthy] at ht
  | bool b => rfl
  | num n => rfl
  | obj => rfl

/-- C10 witness: `postMessage` of the number `5`. -/
theorem post_nonstring_uncaught_witness :
    postMessage envOK initState (.num 5) = ⟨.uncaught, initState, []⟩ :=
  post_nonstring_uncaught envOK initState (.num 5) (by decide)
    (fun s h => JSValue.noConfusion h)

/-- C6: when the Redis client is open, `get` does not reject and the
messages key holds an unexpired entry, the GET handler answers HTTP 200
with the cached (deserialized) list, touches nothing, and performs no
Store operation; conversely a Store list query can only happen when the
cache is unavailable or the lookup missed. -/
theorem list_cache_hit (env : Env) (st : SystemState)
    (cached : List Message)
    (hopen : env.cacheOpen = true) (hok : env.cacheGetFails = false)
    (hhit : cacheGet st.cache REDIS_MESSAGES_KEY env.now = some cached) :
    (getMessages env st =
      ⟨.response 200 (.jsonList cached), st, [.cacheGet]⟩) ∧
    ∀ (env2 : Env) (st2 : SystemState),
      .storeList ∈ (getMessages env2 st2).events →
        env2.cacheOpen = false ∨
        (env2.cacheGetFails = false ∧
         cacheGet st2.cache REDIS_MESSAGES_KEY env2.now = none) := by
  constructor
  · simp [getMessages, hopen, hok, hhit]
  · intro env2 st2 hmem
    by_cases o : env2.cacheOpen = true
    · by_cases g : env2.cacheGetFails = true
      · exfalso
        simp [getMessages, o, g] at hmem
      · cases hc : cacheGet st2.cache REDIS_MESSAGES_KEY env2.now with
        | some v =>
          exfalso
          simp [getMessages, o, g, hc] at hmem
        | none => exact Or.inr ⟨by simpa using g, rfl⟩
    · exact Or.inl (by simpa using o)

/-- C6 witness: a cache hit in `stCached` at time 5. -/
theorem list_cache_hit_witness :
    getMessages envOK stCached =
      ⟨.response 200 (.jsonList [⟨1, "hi", 2⟩]), stCached, [.cacheGet]⟩ :=
  (list_cache_hit envOK stCached [⟨1, "hi", 2⟩] rfl rfl (by decide)).1

/-- C8: on a cache miss with the cache available (client open, `get` and
`setEx` do not reject) and a working Store, the GET handler stores the
full (serialized) list under the single fixed messages key with a TTL of
exactly 3600 seconds, so that an immediate lookup returns it. -/
theorem list_cache_miss_populates (env : Env) (st : SystemState)
    (hopen : env.cacheOpen = true) (hg : env.cacheGetFails = false)
    (hs : env.cacheSetFails = false)
    (hmiss : cacheGet st.cache REDIS_MESSAGES_KEY env.now = none)
    (hdb : env.dbAvailable = true) (hl : env.dbListFails = false) :
    getMessages env st =
      ⟨.response 200 (.jsonList (listAll st.store)),
       { st with cache :=
          (cacheSetEx st.cache REDIS_MESSAGES_KEY 3600 (listAll st.store)
            env.now) },
       [.cacheGet, .storeList, .cacheSet 3600]⟩ ∧
    cacheGet (getMessages env st).state.cache REDIS_MESSAGES_KEY env.now
      = some (listAll st.store) := by
  have he := getMessages_open_miss env st hopen hg hs hmiss hdb hl
  refine ⟨he, ?_⟩
  rw [he]
  exact cacheGet_setEx _ _ _ _ _ (by omega)

/-- C8 witness: a miss on the empty initial cache at time 5. -/
theorem list_cache_miss_populates_witness :
    getMessages envOK initState =
      ⟨.response 200 (.jsonList (listAll initState.store)),
       { initState with cache :=
          (cacheSetEx initState.cache REDIS_MESSAGES_KEY 3600
            (listAll initState.store) envOK.now) },
       [.cacheGet, .storeList, .cacheSet 3600]⟩ :=
  (list_cache_miss_populates envOK initState rfl rfl rfl rfl rfl rfl).1

/-- C3: after any sequence of prior inserts (create requests from the
initial state), a list request that the backing services serve answers
HTTP 200 with exactly the stored rows sorted by `created_at` descending
(newest first). -/
theorem list_sorted_desc (ops : List (Env × JSValue)) (env : Env)
    (st : SystemState)
    (hst : st = execOps (ops.map fun p => (p.1, Request.create p.2)) initState)
    (hdb : env.dbAvailable = true) (hl : env.dbListFails = false)
    (hg : env.cacheGetFails = false) (hs : env.cacheSetFails = false) :
    (getMessages env st).outcome
      = .response 200 (.jsonList (listAll st.store)) ∧
    (listAll st.store).Perm st.store.rows ∧
    (listAll st.store).Pairwise (fun a b => b.created_at ≤ a.created_at) := by
  have hcache : st.cache.entries = [] := by
    rw [hst]
    exact execOps_creates_cache_empty ops initState rfl
  have hmiss : cacheGet st.cache REDIS_MESSAGES_KEY env.now = none :=
    cacheGet_of_entries_nil _ _ _ hcache
  refine ⟨?_, listAll_perm_sorted st.store⟩
  by_cases o : env.cacheOpen = true
  · rw [getMessages_open_miss env st o hg hs hmiss hdb hl]
  · have o' : env.cacheOpen = false := by simpa using o
    simp [getMessages, getMessagesStore, o', hdb, hl]

/-- C3 witness: one insert of `" hi "`, then a list request. -/
theorem list_sorted_desc_witness :
    (getMessages envOK
        (execOps ([((envOK, JSValue.str " hi "))].map
          fun p => (p.1, Request.create p.2)) initState)).outcome
      = .response 200 (.jsonList (listAll
          (execOps ([((envOK, JSValue.str " hi "))].map
            fun p => (p.1, Request.create p.2)) initState).store)) :=
  (list_sorted_desc [(envOK, JSValue.str " hi ")] envOK _ rfl
    rfl rfl rfl rfl).1

/-- C7: invariant — every message persisted in the Store (reachable by any
sequence of requests from the initial state) has content that is
non-empty, trimmed of leading and trailing whitespace, and not
whitespace-only. -/
theorem store_content_invariant (ops : List (Env × Request)) (m : Message)
    (hm : m ∈ (execOps ops initState).store.rows) :
    m.content ≠ "" ∧ jsTrim m.content = m.content ∧
      ¬ ∀ c ∈ m.content.data, isJsWhitespace c :=
  execOps_contentsOK ops initState
    (fun x hx => absurd hx (List.not_mem_nil x)) m hm

/-- C7 witness: the row inserted by `postMessage " hi "`. -/
theorem store_content_invariant_witness :
    Message.mk 1 "hi" 5 ∈
      (execOps [(envOK, Request.create (.str " hi "))] initState).store.rows ∧
    ("hi" : String) ≠ "" ∧ jsTrim "hi" = "hi" ∧
      ¬ ∀ c ∈ ("hi" : String).data, isJsWhitespace c :=
  ⟨by decide,
   store_content_invariant [(envOK, Request.create (.str " hi "))]
     (Message.mk 1 "hi" 5) (by decide)⟩

/-- C4: a valid create request (string content not trimming to empty),
served without I/O failures, answers HTTP 201 with the Message row re-read
from the Store by the generated id — carrying the Store-assigned `id` and
`created_at` and the trimmed content, not the echoed input — and when the
cache client is open the cache `del` happens after the Store insert and
before the Store re-read. -/
theorem post_valid_201 (env : Env) (st : SystemState) (s : String)
    (hs : jsTrim s ≠ "")
    (hdb : env.dbAvailable = true) (hins : env.dbInsertFails = false)
    (hsel : env.dbSelectFails = false)
    (hdel : env.cacheOpen = true → env.cacheDelFails = false)
    (hid : idsBounded st.store) :
    (postMessage env st (.str s)).outcome =
      .response 201 (.jsonRow (some ⟨st.store.nextId, jsTrim s, env.now⟩)) ∧
    (postMessage env st (.str s)).state.store.rows =
      st.store.rows ++ [⟨st.store.nextId, jsTrim s, env.now⟩] ∧
    (env.cacheOpen = true →
      (postMessage env st (.str s)).events =
        [.storeInsert (jsTrim s), .cacheDel, .storeSelect st.store.nextId] ∧
      (postMessage env st (.str s)).state.cache =
        cacheDel st.cache REDIS_MESSAGES_KEY) ∧
    (env.cacheOpen = false →
      (postMessage env st (.str s)).events =
        [.storeInsert (jsTrim s), .storeSelect st.store.nextId] ∧
      (postMessage env st (.str s)).state.cache = st.cache) := by
  have hsne : s ≠ "" := fun h => hs (h ▸ jsTrim_empty)
  have hsel' := selectById_insertRow st.store (jsTrim s) env.now hid
  by_cases o : env.cacheOpen = true
  · have hd := hdel o
    have he : postMessage env st (.str s) =
        ⟨.response 201 (.jsonRow (some ⟨st.store.nextId, jsTrim s, env.now⟩)),
         ⟨(insertRow st.store (jsTrim s) env.now).1,
          cacheDel st.cache REDIS_MESSAGES_KEY⟩,
         [.storeInsert (jsTrim s), .cacheDel,
          .storeSelect st.store.nextId]⟩ := by
      simp [postMessage, postBody, postReread, truthy, hsne, hs, hdb, hins,
        hsel, o, hd, insertRow_snd, hsel']
    rw [he]
    refine ⟨rfl, by simp [insertRow], fun _ => ⟨rfl, rfl⟩, fun ho => ?_⟩
    rw [o] at ho
    exact absurd ho (by simp)
  · have o' : env.cacheOpen = false := by simpa using o
    have he : postMessage env st (.str s) =
        ⟨.response 201 (.jsonRow (some ⟨st.store.nextId, jsTrim s, env.now⟩)),
         ⟨(insertRow st.store (jsTrim s) env.now).1, st.cache⟩,
         [.storeInsert (jsTrim s), .storeSelect st.store.nextId]⟩ := by
      simp [postMessage, postBody, postReread, truthy, hsne, hs, hdb, hins,
        hsel, o', insertRow_snd, hsel']
    rw [he]
    refine ⟨rfl, by simp [insertRow], fun ho => ?_, fun _ => ⟨rfl, rfl⟩⟩
    rw [o'] at ho
    exact absurd ho (by simp)

/-- C4 witness: posting `" hi "` in the fault-free environment from the
initial state. -/
theorem post_valid_201_witness :
    (postMessage envOK initState (.str " hi ")).outcome =
      .response 201 (.jsonRow (some ⟨initState.store.nextId, jsTrim " hi ",
        envOK.now⟩)) ∧
    (postMessage envOK initState (.str " hi ")).state.store.rows =
      initState.store.rows ++ [⟨initState.store.nextId, jsTrim " hi ",
        envOK.now⟩] :=
  ⟨(post_valid_201 envOK initState " hi " (by decide) rfl rfl rfl
      (fun _ => rfl) (fun x hx => absurd hx (List.not_mem_nil x))).1,
   (post_valid_201 envOK initState " hi " (by decide) rfl rfl rfl
      (fun _ => rfl) (fun x hx => absurd hx (List.not_mem_nil x))).2.1⟩

/-- C1 counterexample: the same list request on the same state is served
HTTP 200 when the cache works, but HTTP 500 — a failed read — when the
open Redis client's `get` rejects: a Cache-operation failure is not
swallowed, it changes the HTTP outcome. -/
theorem cache_failure_changes_outcome :
    (getMessages envOK initState).outcome
      = .response 200 (.jsonList []) ∧
    (getMessages { envOK with cacheGetFails := true } initState).outcome
      = .response 500 (.jsonError "Failed to retrieve messages") :=
  ⟨rfl, rfl⟩

/-- C1 amended: cache UNAVAILABILITY (client absent or not open) is fully
transparent — both handlers skip every cache operation and behave the same
whatever the cache-failure flags — but a failing cache OPERATION while the
client is open is caught by the handler's surrounding try/catch and fails
the request with HTTP 500: a rejecting `get` fails the read; a rejecting
`setEx` fails the read although the rows were already fetched; a rejecting
`del` fails a valid create although the row was already inserted. -/
theorem cache_errors_not_swallowed (env : Env) (st : SystemState)
    (c : JSValue) (g s' d : Bool) (str : String) :
    (env.cacheOpen = false →
      getMessages (withCacheFlags env g s' d) st = getMessages env st ∧
      postMessage (withCacheFlags env g s' d) st c = postMessage env st c) ∧
    (env.cacheOpen = true → env.cacheGetFails = true →
      getMessages env st =
        ⟨.response 500 (.jsonError "Failed to retrieve messages"), st,
         [.cacheGet]⟩) ∧
    (env.cacheOpen = true → env.cacheGetFails = false →
      env.cacheSetFails = true →
      cacheGet st.cache REDIS_MESSAGES_KEY env.now = none →
      env.dbAvailable = true → env.dbListFails = false →
      (getMessages env st).outcome =
        .response 500 (.jsonError "Failed to retrieve messages")) ∧
    (env.cacheOpen = true → env.cacheDelFails = true →
      env.dbAvailable = true → env.dbInsertFails = false →
      jsTrim str ≠ "" →
      (postMessage env st (.str str)).outcome =
        .response 500 (.jsonError "Failed to post message") ∧
      (postMessage env st (.str str)).state.store.rows =
        st.store.rows ++ [⟨st.store.nextId, jsTrim str, env.now⟩]) := by
  refine ⟨fun h => ⟨getMessages_cache_flags_irrel env st g s' d h,
                    postMessage_cache_flags_irrel env st c g s' d h⟩,
          fun ho hg => ?_, fun ho hg hs' hmiss hdb hl => ?_,
          fun ho hd hdb hins hstr => ?_⟩
  · simp [getMessages, ho, hg]
  · simp [getMessages, getMessagesStore, ho, hg, hs', hmiss, hdb, hl]
  · have hsne : str ≠ "" := fun hh => hstr (hh ▸ jsTrim_empty)
    constructor
    · simp [postMessage, postBody, truthy, hsne, hstr, hdb, hins, ho, hd]
    · simp [postMessage, postBody, truthy, hsne, hstr, hdb, hins, ho, hd,
        insertRow]

/-- C1 amended witness: an unavailable cache does not change the list
outcome, and an open client with rejecting `get` yields 500. -/
theorem cache_errors_not_swallowed_witness :
    getMessages (withCacheFlags envNoCache true true true) initState
      = getMessages envNoCache initState ∧
    getMessages { envOK with cacheGetFails := true } initState =
      ⟨.response 500 (.jsonError "Failed to retrieve messages"), initState,
       [.cacheGet]⟩ :=
  ⟨((cache_errors_not_swallowed envNoCache initState .null true true true
      "x").1 rfl).1,
   (cache_errors_not_swallowed { envOK with cacheGetFails := true } initState
      .null true true true "x").2.1 rfl rfl⟩

/-- C5 counterexample: a list request with the Store unreachable (`dbPool`
absent) but a live cached entry is answered HTTP 200 from the cache, not
503. -/
theorem store_down_cache_hit_200 :
    (getMessages { envOK with dbAvailable := false } stCached).outcome
      = .response 200 (.jsonList [⟨1, "hi", 2⟩]) ∧
    (getMessages { envOK with dbAvailable := false } stCached).outcome
      ≠ .response 503 (.jsonError "Database service not available.") := by
  constructor
  · decide
  · decide

/-- C5 amended: a list request that reaches the Store (cache unavailable,
or `get` succeeding with a miss) is answered 503
`{error: "Database service not available."}` when the pool is absent and
500 when the list query rejects; a valid create request is answered 503
when the pool is absent and 500 when the insert rejects. (With the Store
unreachable but a live cache hit, the list request is served 200 from the
cache instead.) -/
theorem availability_errors (env : Env) (st : SystemState) (s : String)
    (hreach : env.cacheOpen = false ∨
      (env.cacheGetFails = false ∧
       cacheGet st.cache REDIS_MESSAGES_KEY env.now = none)) :
    (env.dbAvailable = false →
      (getMessages env st).outcome =
        .response 503 (.jsonError "Database service not available.")) ∧
    (env.dbAvailable = true → env.dbListFails = true →
      (getMessages env st).outcome =
        .response 500 (.jsonError "Failed to retrieve messages")) ∧
    (jsTrim s ≠ "" → env.dbAvailable = false →
      (postMessage env st (.str s)).outcome =
        .response 503 (.jsonError "Database service not available.")) ∧
    (jsTrim s ≠ "" → env.dbAvailable = true → env.dbInsertFails = true →
      (postMessage env st (.str s)).outcome =
        .response 500 (.jsonError "Failed to post message")) := by
  have hstore : ∀ (P : HandlerResult → Prop),
      (∀ evs, P (getMessagesStore env st evs)) →
      P (getMessages env st) := by
    intro P hP
    unfold getMessages
    rcases hreach with h | ⟨hg, hm⟩
    · rw [if_neg (by simp [h])]
      exact hP []
    · by_cases o : env.cacheOpen = true
      · rw [if_pos o, if_neg (by simp [hg]), hm]
        exact hP [.cacheGet]
      · rw [if_neg o]
        exact hP []
  refine ⟨fun hdb => ?_, fun hdb hl => ?_, fun hs hdb => ?_,
          fun hs hdb hins => ?_⟩
  · exact hstore
      (fun r => r.outcome =
        .response 503 (.jsonError "Database service not available."))
      (fun evs => by simp [getMessagesStore, hdb])
  · exact hstore
      (fun r => r.outcome =
        .response 500 (.jsonError "Failed to retrieve messages"))
      (fun evs => by simp [getMessagesStore, hdb, hl])
  · have hsne : s ≠ "" := fun hh => hs (hh ▸ jsTrim_empty)
    simp [postMessage, postBody, truthy, hsne, hs, hdb]
  · have hsne : s ≠ "" := fun hh => hs (hh ▸ jsTrim_empty)
    simp [postMessage, postBody, truthy, hsne, hs, hdb, hins]

/-- C5 amended witness: with the cache unavailable and the pool absent,
both list and create are answered 503. -/
theorem availability_errors_witness :
    (getMessages { envNoCache with dbAvailable := false } initState).outcome
      = .response 503 (.jsonError "Database service not available.") ∧
    (postMessage { envNoCache with dbAvailable := false } initState
        (.str " hi ")).outcome
      = .response 503 (.jsonError "Database service not available.") :=
  ⟨(availability_errors { envNoCache with dbAvailable := false } initState
      " hi " (Or.inl rfl)).1 rfl,
   (availability_errors { envNoCache with dbAvailable := false } initState
      " hi " (Or.inl rfl)).2.2.1 (by decide) rfl⟩

end Guestbook
